import Mathlib

/-!
Verification development for the vp-chatbot repository (React frontend of a
vacation-planning chat application, plus the server-side request-orchestration
core described in the design document).

Shallow embedding conventions:
- JavaScript strings are Lean `String`s; JS `null`/`undefined` values are
  `Option` (`none`); the two are collapsed into one `none` wherever the source
  never distinguishes them on a reachable path (noted at each use).
- Times (`Date.now()`, ISO timestamps compared via `new Date(a) - new Date(b)`)
  are `Nat` milliseconds.
- Asynchronous handlers are split into their synchronous prefix (everything up
  to the first `await`) and their continuation (the code after the `await`,
  i.e. the `then`/`catch`/`finally` blocks).  Per JavaScript event-loop
  semantics a settled promise runs its continuation as a microtask, before any
  later user-input macrotask, so "settle" and "run continuation" are modelled
  as one atomic step, and an `abort()` issued from a user-event handler runs
  the aborted operation's rejection continuation before the next user event.
-/

namespace VPChatbot

/-- Boolean substring test: prefix test against every suffix. -/
def strContainsChars (sub s : List Char) : Bool :=
  match s with
  | [] => sub.isEmpty
  | _ :: t => sub.isPrefixOf s || strContainsChars sub t

/-- JavaScript `String.prototype.includes`. -/
def jsIncludes (s sub : String) : Bool :=
  strContainsChars sub.toList s.toList

/-- JavaScript `String.prototype.trim` (whitespace stripping on both ends),
on the character list so that it evaluates by kernel reduction. -/
def jsTrim (s : String) : String :=
  String.mk
    (((s.toList.dropWhile Char.isWhitespace).reverse.dropWhile
      Char.isWhitespace).reverse)

/-! ## api.js — axios response interceptor (src/frontend/src/services/api.js:51-82) -/

/-- Browser localStorage, modelled as an association list. -/
abbrev LocalStorage := List (String × String)

/-- The `localStorage.removeItem(key)` operation. -/
def removeItem (st : LocalStorage) (key : String) : LocalStorage :=
  st.filter (fun kv => kv.1 ≠ key)

/-- The slice of an axios error object read by the response interceptor:
`error.response?.status` and `error.config?.url`. -/
structure AxiosError where
  status : Option Nat
  url : Option String
  deriving Repr, DecidableEq

/-- Result of running the response-error interceptor: the updated localStorage
and whether a redirect to `/auth` was scheduled (the `setTimeout` at
api.js:74-76). -/
structure InterceptorResult where
  storage : LocalStorage
  redirectScheduled : Bool

/-- The test `error.config?.url?.includes('/auth/')` (api.js:72): an absent
url yields `undefined`, which is falsy. -/
def urlTargetsAuth (url : Option String) : Bool :=
  match url with
  | some u => strContainsChars "/auth/".toList u.toList
  | none => false

/-- Embedding of the axios response-error interceptor (api.js:59-81), auth
branch only (the pendingRequests cleanup is modelled separately).  `pathname`
is `window.location.pathname`. -/
def responseErrorInterceptor (err : AxiosError) (st : LocalStorage)
    (pathname : String) : InterceptorResult :=
  if err.status = some 401 ∨ err.status = some 403 then
    let st1 := removeItem (removeItem st "token") "user"
    if pathname ≠ "/auth" ∧ urlTargetsAuth err.url = false then
      ⟨st1, true⟩
    else
      ⟨st1, false⟩
  else
    ⟨st, false⟩

/-! ## api.js — request interceptor and the pendingRequests map (api.js:16-48) -/

/-- The slice of an axios request config the interceptor reads: HTTP method
(lower-case, e.g. "get", "post"), url, and the query-parameter list (the
source serializes it with `JSON.stringify`; any injective encoding gives the
same dedup key equalities, so the pairs are kept as data). -/
structure RequestConfig where
  method : String
  url : String
  params : List (String × String)
  deriving Repr, DecidableEq

/-- The `pendingRequests` map keyed by the request key. -/
abbrev PendingMap :=
  List ((String × String × List (String × String)) × RequestConfig)

/-- Request key from api.js:27 — the tuple serialized there as
`method:url:JSON.stringify(params)`. -/
def requestKey (c : RequestConfig) : String × String × List (String × String) :=
  (c.method, c.url, c.params)

/-- Embedding of the request interceptor body (api.js:19-44): for a `get`
request whose key is already pending it returns the stored config; for a new
`get` it records the config; for every other method it passes the config
through untouched.  In axios, whatever config a request interceptor returns is
then dispatched as a network request — returning the stored config of an
earlier request does not suppress the dispatch. -/
def requestInterceptor (pend : PendingMap) (c : RequestConfig) :
    RequestConfig × PendingMap :=
  if c.method = "get" then
    match pend.find? (fun kv => kv.1 == requestKey c) with
    | some kv => (kv.2, pend)
    | none => (c, (requestKey c, c) :: pend)
  else
    (c, pend)

/-- Embedding of the config built by `sendMessage` (api.js:111-120): a POST to
`/chat/` whose params carry `conversation_id` exactly when a conversation id
was supplied. -/
def chatConfig (conversationId : Option Nat) : RequestConfig :=
  { method := "post"
    url := "/chat/"
    params := match conversationId with
      | some cid => [("conversation_id", toString cid)]
      | none => [] }

/-- Number of network dispatches performed when a batch of requests enters the
axios pipeline: every request that reaches the interceptor is dispatched with
the (possibly substituted) config the interceptor returns. -/
def dispatchCount (pend : PendingMap) : List RequestConfig → Nat
  | [] => 0
  | c :: rest =>
      let (_, pend1) := requestInterceptor pend c
      1 + dispatchCount pend1 rest

/-! ## useConversations.js — conversation list with optimistic updates
(src/frontend/src/hooks/useConversations.js) -/

/-- Raw conversation object as received from the server (the fields read by
`normalizeConversation`, useConversations.js:22-28).  JS falsiness of absent
fields is `Option.none`; an empty title string is also falsy in JS, so titles
are kept as `Option String` with `some ""` never produced by the model's
normalizer input (noted where used). -/
structure RawConv where
  id : Option String
  mongoId : Option String
  title : Option String
  createdAt : Option Nat
  updatedAt : Option Nat
  deriving Repr, DecidableEq

/-- Normalized conversation (post `normalizeConversation`). `mongoId` embeds
the source's `_id` field. -/
structure Conv where
  id : String
  mongoId : String
  title : String
  updatedAt : Nat
  deriving Repr, DecidableEq

/-- Embedding of `normalizeConversation` (useConversations.js:22-28):
`id: conv.id || conv._id`, `_id: conv._id || conv.id`,
`title: conv.title || 'Untitled Conversation'`,
`updated_at: conv.updated_at || conv.created_at || new Date().toISOString()`.
An absent (or empty, hence falsy) field falls through to the next
alternative; `now` stands for `new Date()`. -/
def normalizeConversation (now : Nat) (c : RawConv) : Conv :=
  { id := (c.id.filter (· ≠ "")).getD ((c.mongoId.filter (· ≠ "")).getD "")
    mongoId := (c.mongoId.filter (· ≠ "")).getD ((c.id.filter (· ≠ "")).getD "")
    title := (c.title.filter (· ≠ "")).getD "Untitled Conversation"
    updatedAt := c.updatedAt.getD (c.createdAt.getD now) }

/-- Comparator used at useConversations.js:43-45 and 172-174:
`(a, b) => new Date(b.updated_at) - new Date(a.updated_at)` sorts by
`updated_at` descending. -/
def updatedDesc (a b : Conv) : Prop := b.updatedAt ≤ a.updatedAt

instance : DecidableRel updatedDesc := fun a b =>
  inferInstanceAs (Decidable (b.updatedAt ≤ a.updatedAt))

instance : IsTotal Conv updatedDesc :=
  ⟨fun a b => Nat.le_total b.updatedAt a.updatedAt⟩

instance : IsTrans Conv updatedDesc :=
  ⟨fun _ _ _ h1 h2 => Nat.le_trans h2 h1⟩

/-- Result of `loadConversations`' success path (useConversations.js:40-45):
normalize every received conversation, then sort descending by `updated_at`.
The JS engine's `Array.prototype.sort` with this comparator produces a list
sorted under `updatedDesc`; insertion sort is one such sort. -/
def loadConversationsApply (now : Nat) (data : List RawConv) : List Conv :=
  List.insertionSort updatedDesc ((data.map (normalizeConversation now)))

/-- Embedding of `touchConversation` (useConversations.js:165-176): stamp the
matching conversation (by `id` or `_id`) with the current time, then re-sort
descending by `updated_at`. -/
def touchConversation (now : Nat) (id : String) (convs : List Conv) :
    List Conv :=
  List.insertionSort updatedDesc
    (convs.map (fun c =>
      if c.id = id ∨ c.mongoId = id then { c with updatedAt := now } else c))

/-- State of the `useConversations` hook relevant to the CRUD mutations:
the visible list, the `pendingOps` key set (a ref), and the notifications
surfaced so far. -/
structure ConvState where
  convs : List Conv
  pending : List String
  notifs : List String
  deriving Repr, DecidableEq

/-- The optimistic conversation built by `createNewConversation`
(useConversations.js:70-79); its id is `temp-` ++ the current timestamp. -/
def optimisticConv (now : Nat) (title : String) : Conv :=
  { id := "temp-" ++ toString now
    mongoId := "temp-" ++ toString now
    title := title
    updatedAt := now }

/-- Synchronous prefix of `createNewConversation` (useConversations.js:63-82):
blocked (returns `none`) when a create is already pending; otherwise records
the op key and prepends the optimistic conversation. -/
def beginCreate (now : Nat) (title : String) (s : ConvState) :
    Option ConvState :=
  if "create-conversation" ∈ s.pending then none
  else some { s with
    pending := "create-conversation" :: s.pending
    convs := optimisticConv now title :: s.convs }

/-- Failure continuation of `createNewConversation` (useConversations.js:95-102):
remove the optimistic conversation by id, surface a failure notification,
release the op key. -/
def settleCreateFail (now : Nat) (s : ConvState) : ConvState :=
  { s with
    convs := s.convs.filter (fun c => c.id ≠ "temp-" ++ toString now)
    notifs := "Failed to create conversation" :: s.notifs
    pending := s.pending.filter (· ≠ "create-conversation") }

/-- Synchronous prefix of `updateConversationTitle`
(useConversations.js:106-122): blocked when `update-id` is pending; otherwise
records the key and applies the optimistic retitle.  The second component of
the result is the `originalConversations` snapshot captured for rollback. -/
def beginUpdate (now : Nat) (id title : String) (s : ConvState) :
    Option (ConvState × List Conv) :=
  if ("update-" ++ id) ∈ s.pending then none
  else some
    ({ s with
        pending := ("update-" ++ id) :: s.pending
        convs := s.convs.map (fun c =>
          if c.id = id ∨ c.mongoId = id then
            { c with title := title, updatedAt := now }
          else c) },
      s.convs)

/-- Failure continuation of `updateConversationTitle`
(useConversations.js:127-134): restore the snapshot, surface a failure
notification, release the op key. -/
def settleUpdateFail (id : String) (snapshot : List Conv) (s : ConvState) :
    ConvState :=
  { s with
    convs := snapshot
    notifs := "Failed to update conversation" :: s.notifs
    pending := s.pending.filter (· ≠ "update-" ++ id) }

/-- Synchronous prefix of `removeConversation` (useConversations.js:138-148):
blocked when `delete-id` is pending; otherwise records the key and removes the
conversation optimistically.  Second component is the rollback snapshot. -/
def beginDelete (id : String) (s : ConvState) :
    Option (ConvState × List Conv) :=
  if ("delete-" ++ id) ∈ s.pending then none
  else some
    ({ s with
        pending := ("delete-" ++ id) :: s.pending
        convs := s.convs.filter (fun c => c.id ≠ id ∧ c.mongoId ≠ id) },
      s.convs)

/-- Failure continuation of `removeConversation`
(useConversations.js:154-161): restore the snapshot, surface a failure
notification, release the op key. -/
def settleDeleteFail (id : String) (snapshot : List Conv) (s : ConvState) :
    ConvState :=
  { s with
    convs := snapshot
    notifs := "Failed to delete conversation" :: s.notifs
    pending := s.pending.filter (· ≠ "delete-" ++ id) }

/-- Count of optimistic mutations currently in progress that target the entity
`id`: the rename key and the delete key for that entity. -/
def mutationsInProgressOn (s : ConvState) (id : String) : Nat :=
  (s.pending.filter
    (fun k => k = "update-" ++ id ∨ k = "delete-" ++ id)).length

/-! ## RateLimiter — server side, spec §4.2 (backend code absent from src/) -/

/-- Modelled from the spec: the backend RateLimiter of §4.2 is not under
src/ (the repository snapshot contains only the React frontend), so the
sliding-window limiter is modelled from the specification text: fixed window
of 60 seconds, fixed quota of 20; on each call prune timestamps older than
the window, check the count against the quota, record and allow when below,
deny without recording otherwise. -/
def rlWindowMs : Nat := 60000

/-- Modelled from the spec: the fixed quota of §4.2 (20 requests / 60 s). -/
def rlQuota : Nat := 20

/-- Modelled from the spec: pruning of one user's window — drop every
timestamp older than the window measured from `now`. -/
def rlPrune (now : Nat) (st : List Nat) : List Nat :=
  st.filter (fun x => decide (now < x + rlWindowMs))

/-- Modelled from the spec: one `tryAcquire` call for one user at time `now`:
prune, then either record and allow or deny without recording.  Returns the
new window state and whether the call was allowed. -/
def rlStep (st : List Nat) (now : Nat) : List Nat × Bool :=
  let p := rlPrune now st
  if p.length < rlQuota then (now :: p, true) else (p, false)

/-- Window state after processing a sequence of calls from state `st`. -/
def rlStateFrom (st : List Nat) (tr : List Nat) : List Nat :=
  tr.foldl (fun acc t => (rlStep acc t).1) st

/-- Timestamps of the accepted calls of a sequence processed from `st`. -/
def rlAcceptedFrom (st : List Nat) : List Nat → List Nat
  | [] => []
  | t :: ts =>
      let r := rlStep st t
      (if r.2 then [t] else []) ++ rlAcceptedFrom r.1 ts

/-- Modelled from the spec: outcome of one chat turn at the orchestrator
boundary (§4.4, §6): a reply, a distinct rate-limited status, or a generic
upstream failure. -/
inductive TurnOutcome where
  | reply (text : String)
  | rateLimited
  | upstreamFailure
  deriving Repr, DecidableEq

/-- Modelled from the spec: the rate-check stage of `handleTurn` (§4.4 step 3
and §6): consult the limiter; on denial fail with the distinct RateLimited
status without invoking the upstream collaborator; on success invoke it once.
The last component counts upstream invocations performed by this turn. -/
def orchestrateTurn (st : List Nat) (now : Nat) (upstreamReply : String) :
    List Nat × TurnOutcome × Nat :=
  let r := rlStep st now
  if r.2 then (r.1, .reply upstreamReply, 1) else (r.1, .rateLimited, 0)

/-! ## DedupCache — server side, spec §4.1 (backend code absent from src/) -/

/-- Modelled from the spec: outcome stored in a dedup entry — the result once
DONE, the error once FAILED (§3 DedupEntry). -/
inductive DedupOutcome where
  | done (r : String)
  | failed (e : String)
  deriving Repr, DecidableEq

/-- Modelled from the spec: a dedup entry carries its settled outcome and its
expiry instant (`expiresAt = now + TTL`, §4.1). -/
structure DedupEntry where
  outcome : DedupOutcome
  expiresAt : Nat
  deriving Repr, DecidableEq

/-- Modelled from the spec: the dedup TTL default of 60 seconds (§4.1). -/
def dedupTTLMs : Nat := 60000

/-- Modelled from the spec: the request fingerprint — a pure, deterministic
derivation from user identity, target conversation identity and normalized
message text (§3 RequestFingerprint). -/
def fingerprint (userId : Nat) (conversationId : Option Nat) (msg : String) :
    String :=
  toString userId ++ "|" ++ (match conversationId with
    | some c => toString c
    | none => "new") ++ "|" ++ msg

/-- Modelled from the spec: the cache maps fingerprints to entries. -/
abbrev DedupCache := List (String × DedupEntry)

/-- Modelled from the spec: `getOrCreate(fingerprint, computeFn)` (§4.1) for
one call at time `now`.  An unexpired entry is returned without invoking
`computeFn` (waiters of a PENDING entry receive the same settled outcome, so
the settled outcome stands for both phases); on a miss or an expired entry the
computation runs exactly once and its outcome is stored with
`expiresAt = now + TTL`.  The last component counts invocations of
`computeFn` performed by this call. -/
def getOrCreate (cache : DedupCache) (fp : String) (compute : DedupOutcome)
    (now : Nat) : DedupCache × DedupOutcome × Nat :=
  match cache.find? (fun kv => kv.1 == fp) with
  | some kv =>
      if now < kv.2.expiresAt then (cache, kv.2.outcome, 0)
      else ((fp, ⟨compute, now + dedupTTLMs⟩) :: cache.filter (fun kv2 => kv2.1 ≠ fp),
            compute, 1)
  | none => ((fp, ⟨compute, now + dedupTTLMs⟩) :: cache, compute, 1)

/-- Modelled from the spec: a set of calls sharing one fingerprint processed
in time order; returns the list of outcomes the callers receive and the total
number of `computeFn` executions. -/
def dedupRun (cache : DedupCache) (fp : String) (compute : DedupOutcome) :
    List Nat → List DedupOutcome × Nat
  | [] => ([], 0)
  | t :: ts =>
      let r := getOrCreate cache fp compute t
      let rest := dedupRun r.1 fp compute ts
      (r.2.1 :: rest.1, r.2.2 + rest.2)

/-! ## useChat.js / ChatPage / MessageInput — the client chat state machine

The machine embeds `useChat` (src/frontend/src/hooks/useChat.js) together
with its wiring in ChatPage (processing overlay, `disabled={isChatLoading}`
on the input, `handleConversationUpdate` navigation) and the error mapping of
`sendMessage` / `getConversation` (api.js:111-166).  Asynchronous handlers
follow the convention in the file header: the synchronous prefix of a handler
runs when its triggering event fires; a settled network call runs its
continuation atomically; aborting an in-flight call (via the shared
`abortControllerRef`) runs its rejection continuation after the synchronous
code of the event that issued the abort. -/

/-- One entry of the `messages` state (role, content, isError flag). -/
structure ChatMsg where
  role : String
  content : String
  isError : Bool
  deriving Repr, DecidableEq

/-- Kind of an in-flight client operation. -/
inductive OpKind where
  | load
  | send
  deriving Repr, DecidableEq

/-- An in-flight network operation held by the hook.  `target` is, for a
send, the captured `requestConversationId` (useChat.js:161), and for a load
the conversation id passed to `loadConversation`.  `gen` is a ghost
generation number (spec §3 ClientOperation): the value of the machine's
generation counter when the operation started; it does not influence any
transition. -/
structure Op where
  kind : OpKind
  target : Option Nat
  gen : Nat
  deriving Repr, DecidableEq

/-- State of the chat machine.  `curConv` is the `conversationId` route prop;
`loadedConv` is `loadedConversationRef.current`; `processingConv` is
`processingConversationRef.current` (JS `null` and `undefined` both map to
`none`; the two are never distinguished on a reachable path because refs hold
`null` only while `isProcessing` is false).  `callbacks` records the
arguments of every `onConversationUpdate` invocation.  `curGen` and
`appliedLog` are ghost fields: `curGen` increments whenever the conversation
context changes or an operation starts, and `appliedLog` records
`(operation generation, current generation)` each time a network result is
applied to the visible messages. -/
structure ChatState where
  curConv : Option Nat
  msgs : List ChatMsg
  isLoading : Bool
  isProcessing : Bool
  loadedConv : Option Nat
  processingConv : Option Nat
  suggestions : List String
  notifs : List String
  callbacks : List Nat
  inflight : Option Op
  curGen : Nat
  appliedLog : List (Nat × Nat)
  deriving Repr, DecidableEq

/-- The welcome message (useChat.js:31-35). -/
def welcomeMsg : ChatMsg :=
  ⟨"assistant",
   "Hello! I'm your vacation planning assistant. Where would you like to go for your next adventure?",
   false⟩

/-- The returning-user message (useChat.js:37-41). -/
def continueMsg : ChatMsg :=
  ⟨"assistant", "Welcome back! Let's continue planning your trip.", false⟩

/-- Embedding of `clearState` (useChat.js:44-51). -/
def clearState (s : ChatState) : ChatState :=
  { s with msgs := [], suggestions := [], isLoading := false,
           isProcessing := false, processingConv := none }

/-- Synchronous prefix of `loadConversation(id)` (useChat.js:65-93): the two
early-return guards, the abort of the previous controller (handled by the
caller, which runs the aborted operation's continuation afterwards),
`clearState`, the invalid-id welcome path, and otherwise the start of the
`getConversation` await, recorded as a fresh in-flight load operation. -/
def loadConversationStart (id : Option Nat) (s : ChatState) : ChatState :=
  if s.isProcessing = true ∧ s.processingConv ≠ id then s
  else if s.loadedConv = id ∧ id ≠ none then s
  else
    let s1 := clearState s
    match id with
    | none => { s1 with msgs := [welcomeMsg], loadedConv := none }
    | some c =>
        { s1 with isLoading := true, loadedConv := some c,
                  inflight := some ⟨.load, some c, s1.curGen + 1⟩,
                  curGen := s1.curGen + 1 }

/-- The slice of a raw axios error read by the api.js catch blocks:
`name`, `message`, `code`, `response?.status`, `response?.data?.detail`
(the array form of `detail` is not modelled — none of the claims touch it). -/
structure JsError where
  name : String
  message : String
  code : Option String
  status : Option Nat
  detail : Option String
  deriving Repr, DecidableEq

/-- The error axios produces when a request is aborted through its signal:
a `CanceledError` with message "canceled". -/
def axiosCancelError : JsError :=
  ⟨"CanceledError", "canceled", some "ERR_CANCELED", none, none⟩

/-- Embedding of `handleApiError` (api.js:85-108), without the
validation-array branch (modelled as `detail` being a plain string). -/
def handleApiError (e : JsError) (defaultMessage : String) : String :=
  match e.detail with
  | some d => d
  | none =>
      if e.status = some 404 then "Resource not found"
      else if e.status = some 500 then "Server error. Please try again later."
      else if e.code = some "ECONNABORTED" then "Request timeout. Please try again."
      else defaultMessage

/-- Embedding of the catch block of `sendMessage` (api.js:129-146): it maps
every failure to a fresh `new Error(...)`, which has name "Error" and carries
no `response`/`code` — in particular an abort becomes
`Error("Request was cancelled")`. -/
def apiSendMessageError (e : JsError) : JsError :=
  if e.name = "AbortError" ∨ jsIncludes e.message "canceled" then
    ⟨"Error", "Request was cancelled", none, none, none⟩
  else if e.code = some "ECONNABORTED" ∨ jsIncludes e.message "timeout" then
    ⟨"Error",
     "Request timed out. The AI is taking longer than expected to process your request. Please try again.",
     none, none, none⟩
  else if e.status = some 408 then
    ⟨"Error", "Request timed out. Please try again.", none, none, none⟩
  else if e.status = some 500 then
    ⟨"Error", "Unable to process your message. Please try again.", none, none, none⟩
  else
    ⟨"Error", handleApiError e "Failed to send message", none, none, none⟩

/-- Embedding of the catch block of `getConversation` (api.js:159-166): every
failure, including an abort, is rewrapped as
`new Error(handleApiError(error, "Failed to load conversation"))` — name
"Error", no `response`, so downstream checks of `error.name` and
`error.response?.status` never match. -/
def apiGetConversationError (e : JsError) : JsError :=
  ⟨"Error", handleApiError e "Failed to load conversation", none, none, none⟩

/-- Catch block of `sendChatMessage` (useChat.js:215-237).  The guard
`requestConversationId !== conversationId` compares the captured
`conversationId` with itself (the async closure captured the prop once at
line 161), so it is never true and is omitted.  Note the surviving check is
`error.message.includes("canceled")` against the wrapped message
"Request was cancelled", which is spelled with a double l. -/
def sendCatch (e : JsError) (s : ChatState) : ChatState :=
  if e.name = "AbortError" ∨ jsIncludes e.message "canceled" then s
  else
    let errorContent :=
      if e.message ≠ "" then e.message
      else match e.detail with
        | some d => d
        | none => "I'm sorry, I encountered an error. Please try again."
    { s with msgs := s.msgs ++ [⟨"assistant", errorContent, true⟩],
             notifs := "Failed to send message" :: s.notifs }

/-- Finally block of `sendChatMessage` (useChat.js:238-246).  The guard
`requestConversationId === conversationId` again compares the captured prop
with itself and always holds. -/
def sendFinally (s : ChatState) : ChatState :=
  { s with isLoading := false, isProcessing := false, processingConv := none }

/-- Catch block of `loadConversation` (useChat.js:129-145), applied to the
error produced by `getConversation`'s wrapper.  The 404 branch asks for
`error.response?.status === 404`, which the wrapper never preserves; it is
kept for faithfulness and modelled as the full-page navigation to `/chat`
(state reset) the source performs. -/
def loadCatch (id : Nat) (e : JsError) (resetState : ChatState)
    (s : ChatState) : ChatState :=
  if e.name = "AbortError" then s
  else if s.loadedConv = some id then
    if e.status = some 404 then
      { resetState with
          notifs := "Conversation not found. Starting a new chat." :: s.notifs }
    else
      { s with notifs := "Failed to load conversation" :: s.notifs,
               msgs := [welcomeMsg] }
  else s

/-- Finally block of `loadConversation` (useChat.js:146-150). -/
def loadFinally (id : Nat) (s : ChatState) : ChatState :=
  if s.loadedConv = some id then { s with isLoading := false } else s

/-- A loaded conversation as returned by the server: its message list as
(role, content) pairs. -/
structure LoadedConv where
  messages : List (String × String)
  deriving Repr, DecidableEq

/-- A chat response as returned by the server (api.js `response.data`):
reply text, optional conversation id, optional suggestions. -/
structure ChatResponse where
  text : String
  convId : Option Nat
  suggestions : Option (List String)
  deriving Repr, DecidableEq

/-- Initial hook state before the mount effect (useChat.js:19-28). -/
def initState : ChatState :=
  { curConv := none, msgs := [], isLoading := false, isProcessing := false,
    loadedConv := none, processingConv := none, suggestions := [],
    notifs := [], callbacks := [], inflight := none, curGen := 0,
    appliedLog := [] }

/-- State after the mount effect at route `/chat` (useChat.js:258-267):
`loadConversation(undefined)` shows the welcome message. -/
def mountState : ChatState := loadConversationStart none initState

/-- Rejection continuation of an operation aborted through the shared
`abortControllerRef`: the aborted await rejects with the axios cancel error,
wrapped by the api.js catch of the respective call, and then the hook's
catch and finally blocks run. -/
def runAbortContinuation (o : Op) (s : ChatState) : ChatState :=
  match o.kind with
  | .send => sendFinally (sendCatch (apiSendMessageError axiosCancelError) s)
  | .load =>
      match o.target with
      | some id =>
          loadFinally id
            (loadCatch id (apiGetConversationError axiosCancelError) mountState s)
      | none => s

/-- Synchronous prefix of `sendChatMessage` (useChat.js:154-180): abort any
current controller, capture `requestConversationId := conversationId`, append
the user message, raise the flags, record the processing target, create the
new controller and start the `sendMessage` await.  The aborted predecessor's
rejection continuation runs after this synchronous code. -/
def sendStart (text : String) (s : ChatState) : ChatState :=
  let old := s.inflight
  let s1 := { s with
    msgs := s.msgs ++ [⟨"user", text, false⟩],
    isLoading := true, isProcessing := true,
    processingConv := s.curConv,
    inflight := some ⟨.send, s.curConv, s.curGen + 1⟩,
    curGen := s.curGen + 1 }
  match old with
  | some o => runAbortContinuation o s1
  | none => s1

/-- Success continuation of `sendChatMessage` (useChat.js:177-214 and the
finally block), for the in-flight send `o`.  The stale-check at lines 183-185
compares the captured prop with itself and never fires, so the assistant
reply is appended unconditionally; this application to visible state is
recorded in the ghost `appliedLog`.  For a send that created a new
conversation (lines 195-206) the hook records the new id in
`loadedConversationRef`, invokes `onConversationUpdate` —
ChatPage.handleConversationUpdate navigates to `/chat/id` — after which the
`conversationId` effect (useChat.js:257-267) runs: it aborts the already
settled controller (a no-op), resets `loadedConversationRef` and calls
`loadConversation(id)`, which clears the state and starts a fresh load. -/
def sendOkCont (o : Op) (r : ChatResponse) (s : ChatState) : ChatState :=
  let s1 : ChatState := { s with
    msgs := s.msgs ++ [⟨"assistant", r.text, false⟩],
    appliedLog := (o.gen, s.curGen) :: s.appliedLog }
  let s2 : ChatState := { s1 with suggestions := match r.suggestions with
    | some sug => sug
    | none => s1.suggestions }
  match o.target, r.convId with
  | none, some c =>
      let s3 := { s2 with loadedConv := some c, callbacks := s2.callbacks ++ [c] }
      let s4 := { sendFinally s3 with inflight := none }
      let s5 := { s4 with curConv := some c, curGen := s4.curGen + 1,
                          loadedConv := none }
      loadConversationStart (some c) s5
  | _, _ => { sendFinally s2 with inflight := none }

/-- Success continuation of `loadConversation` (useChat.js:96-127, 146-150)
for the in-flight load of conversation `id`: drop the result unless
`loadedConversationRef` still holds `id`; otherwise install the loaded
messages (or the returning-user message when empty) — recorded in the ghost
`appliedLog` — and clear the loading flag. -/
def loadOkCont (o : Op) (id : Nat) (d : LoadedConv) (s : ChatState) :
    ChatState :=
  if s.loadedConv = some id then
    let msgs := match d.messages with
      | [] => [continueMsg]
      | ms => ms.map (fun rc => (⟨rc.1, rc.2, false⟩ : ChatMsg))
    { s with msgs := msgs, isLoading := false,
             appliedLog := (o.gen, s.curGen) :: s.appliedLog }
  else s

/-- Events driving the chat machine.  `switch` is a route change to another
conversation (sidebar click or browser navigation; the effect at
useChat.js:257-267 runs exactly when the prop changes).  `submit` is a form
submit of MessageInput; `clickSuggestion` is a click on a suggestion chip
(ChatPage:178-181), possible only while the processing overlay
(ChatPage:202-212, fixed full-screen while `isProcessing`) is absent.
`sendOk`/`sendErr`/`loadOk`/`loadErr` are the settlement of the in-flight
network call of the matching kind; an operation aborted by a supersession
never reaches them because its rejection ran inside the superseding step. -/
inductive ChatEvent where
  | switch (c : Option Nat)
  | submit (text : String)
  | clickSuggestion (i : Nat)
  | sendOk (r : ChatResponse)
  | sendErr (e : JsError)
  | loadOk (d : LoadedConv)
  | loadErr (e : JsError)

/-- One machine step. -/
def step (s : ChatState) (ev : ChatEvent) : ChatState :=
  match ev with
  | .switch c =>
      if c = s.curConv then s
      else
        let old := s.inflight
        let s1 := { s with curConv := c, curGen := s.curGen + 1,
                           inflight := none, loadedConv := none }
        let s2 := loadConversationStart c s1
        match old with
        | some o => runAbortContinuation o s2
        | none => s2
  | .submit text =>
      if jsTrim text ≠ "" ∧ s.isLoading = false then sendStart text s else s
  | .clickSuggestion i =>
      match s.suggestions.get? i with
      | some text =>
          if s.isProcessing = false then
            { sendStart text s with suggestions := [] }
          else s
      | none => s
  | .sendOk r =>
      match s.inflight with
      | some o => if o.kind = .send then sendOkCont o r s else s
      | none => s
  | .sendErr e =>
      match s.inflight with
      | some o =>
          if o.kind = .send then
            { sendFinally (sendCatch (apiSendMessageError e) s) with
                inflight := none }
          else s
      | none => s
  | .loadOk d =>
      match s.inflight with
      | some o =>
          match o.kind, o.target with
          | .load, some id => { loadOkCont o id d s with inflight := none }
          | _, _ => s
      | none => s
  | .loadErr e =>
      match s.inflight with
      | some o =>
          match o.kind, o.target with
          | .load, some id =>
              { loadFinally id
                  (loadCatch id (apiGetConversationError e) mountState s) with
                inflight := none }
          | _, _ => s
      | none => s

/-- The machine state after a sequence of events from the mounted page. -/
def runChat (evs : List ChatEvent) : ChatState :=
  evs.foldl step mountState

/-- The full-screen processing overlay of ChatPage (part of the page sources,
lines 202-212): rendered with this text exactly while `isProcessing`. -/
def processingOverlay (s : ChatState) : Option String :=
  if s.isProcessing then some "Processing your request..." else none

/-- Embedding of MessageInput.handleSubmit (MessageInput.jsx:9-16): when the
trimmed text is nonempty and the input is not disabled, `onSendMessage` fires
and the input clears; otherwise nothing fires and the typed text stays.
Returns (message sent, input text afterwards).  ChatPage passes
`disabled={isChatLoading}`. -/
def handleSubmit (message : String) (disabled : Bool) :
    Option String × String :=
  if jsTrim message ≠ "" ∧ disabled = false then (some message, "")
  else (none, message)

/-- Whether the in-flight operation, if any, is a send. -/
def inflightSendB (s : ChatState) : Bool :=
  match s.inflight with
  | some o => o.kind == .send
  | none => false

/-- Machine invariant: the flags mirror the in-flight operation, and an
in-flight operation is always current — it targets the current conversation
and carries the current generation (no event leaves a superseded operation
in flight: every superseding event aborts it and runs its rejection). -/
def ChatInv (s : ChatState) : Prop :=
  s.isLoading = s.inflight.isSome ∧
  s.isProcessing = inflightSendB s ∧
  ∀ o, s.inflight = some o →
    o.gen = s.curGen ∧ o.target = s.curConv ∧
    (o.kind = .send → s.processingConv = o.target) ∧
    (o.kind = .load → s.loadedConv = o.target ∧ s.suggestions = [])

/-- Ghost-log property: every application of a network result to the visible
messages happened at the generation the operation started with. -/
def GoodLog (s : ChatState) : Prop :=
  ∀ p ∈ s.appliedLog, p.1 = p.2

theorem chatInv_mount : ChatInv mountState ∧ GoodLog mountState := by
  refine ⟨⟨rfl, rfl, ?_⟩, ?_⟩
  · intro o h
    simp [mountState, loadConversationStart, initState, clearState] at h
  · intro p hp
    simp [mountState, loadConversationStart, initState, clearState,
      GoodLog] at hp

theorem sendCatch_fields (e : JsError) (s : ChatState) :
    (sendCatch e s).isLoading = s.isLoading ∧
    (sendCatch e s).isProcessing = s.isProcessing ∧
    (sendCatch e s).inflight = s.inflight ∧
    (sendCatch e s).curConv = s.curConv ∧
    (sendCatch e s).curGen = s.curGen ∧
    (sendCatch e s).loadedConv = s.loadedConv ∧
    (sendCatch e s).processingConv = s.processingConv ∧
    (sendCatch e s).suggestions = s.suggestions ∧
    (sendCatch e s).appliedLog = s.appliedLog := by
  unfold sendCatch
  split <;> simp

theorem sendFinally_abort_inv (e : JsError) (s : ChatState)
    (hin : s.inflight = none) (hlog : GoodLog s) :
    ChatInv (sendFinally (sendCatch e s)) ∧
    GoodLog (sendFinally (sendCatch e s)) := by
  obtain ⟨h1, h2, h3, _, _, _, _, _, h9⟩ := sendCatch_fields e s
  refine ⟨⟨?_, ?_, ?_⟩, ?_⟩
  · simp [sendFinally, h3, hin]
  · simp [sendFinally, inflightSendB, h3, hin]
  · intro o ho
    simp [sendFinally, h3, hin] at ho
  · intro p hp
    simp only [sendFinally] at hp
    exact hlog p (h9 ▸ hp)

theorem loadStart_inv (s : ChatState) (c : Option Nat)
    (hP : s.isProcessing = false) (hld : s.loadedConv = none)
    (hin : s.inflight = none) (hcur : s.curConv = c) (hlog : GoodLog s) :
    ChatInv (loadConversationStart c s) ∧
    GoodLog (loadConversationStart c s) ∧
    (loadConversationStart c s).curConv = s.curConv ∧
    (loadConversationStart c s).loadedConv = c ∧
    (loadConversationStart c s).appliedLog = s.appliedLog := by
  unfold loadConversationStart
  rw [if_neg (by simp [hP])]
  cases c with
  | none =>
      rw [if_neg (by simp)]
      refine ⟨⟨by simp [clearState, hin], by simp [clearState, inflightSendB, hin], ?_⟩,
        ?_, by simp [clearState], by simp [clearState], by simp [clearState]⟩
      · intro o ho
        simp [clearState, hin] at ho
      · intro p hp
        simp only [clearState] at hp
        exact hlog p hp
  | some cc =>
      rw [if_neg (by simp [hld])]
      refine ⟨⟨by simp [clearState], by simp [clearState, inflightSendB], ?_⟩,
        ?_, by simp [clearState], by simp [clearState], by simp [clearState]⟩
      · intro o ho
        simp only [clearState] at ho
        obtain rfl := Option.some_inj.mp ho.symm
        simp [clearState, hcur]
      · intro p hp
        simp only [clearState] at hp
        exact hlog p hp

theorem preserve_submit (s : ChatState) (text : String)
    (hInv : ChatInv s) (hlog : GoodLog s) :
    ChatInv (step s (.submit text)) ∧ GoodLog (step s (.submit text)) := by
  obtain ⟨hL, hP, hOp⟩ := hInv
  simp only [step]
  split
  · rename_i hg
    have hin : s.inflight = none := by
      cases h : s.inflight with
      | none => rfl
      | some o => rw [h] at hL; rw [hg.2] at hL; simp at hL
    unfold sendStart
    rw [hin]
    refine ⟨⟨rfl, rfl, ?_⟩, ?_⟩
    · intro o ho
      obtain rfl := Option.some_inj.mp ho.symm
      simp
    · intro p hp
      exact hlog p hp
  · exact ⟨⟨hL, hP, hOp⟩, hlog⟩

theorem preserve_clickSuggestion (s : ChatState) (i : Nat)
    (hInv : ChatInv s) (hlog : GoodLog s) :
    ChatInv (step s (.clickSuggestion i)) ∧
    GoodLog (step s (.clickSuggestion i)) := by
  obtain ⟨hL, hP, hOp⟩ := hInv
  cases hsug : s.suggestions.get? i with
  | none =>
      simp only [step, hsug]
      exact ⟨⟨hL, hP, hOp⟩, hlog⟩
  | some text =>
      simp only [step, hsug]
      split
      · rename_i hproc
        have hin : s.inflight = none := by
          cases h : s.inflight with
          | none => rfl
          | some o =>
              cases hk : o.kind with
              | send =>
                  rw [hP] at hproc
                  simp [inflightSendB, h, hk] at hproc
              | load =>
                  have hs := ((hOp o h).2.2.2 hk).2
                  rw [hs] at hsug
                  simp at hsug
        unfold sendStart
        rw [hin]
        refine ⟨⟨rfl, rfl, ?_⟩, ?_⟩
        · intro o ho
          obtain rfl := Option.some_inj.mp ho.symm
          simp
        · intro p hp
          exact hlog p hp
      · exact ⟨⟨hL, hP, hOp⟩, hlog⟩

theorem loadAbort_noop (id : Nat) (e : JsError) (m s : ChatState)
    (hname : e.name ≠ "AbortError") (hld : s.loadedConv ≠ some id) :
    loadFinally id (loadCatch id e m s) = s := by
  unfold loadCatch loadFinally
  rw [if_neg hname, if_neg hld, if_neg hld]

theorem preserve_switch (s : ChatState) (c : Option Nat)
    (hInv : ChatInv s) (hlog : GoodLog s) :
    ChatInv (step s (.switch c)) ∧ GoodLog (step s (.switch c)) := by
  obtain ⟨hL, hP, hOp⟩ := hInv
  simp only [step]
  split
  · exact ⟨⟨hL, hP, hOp⟩, hlog⟩
  · rename_i hne
    cases hin : s.inflight with
    | none =>
        have hP0 : s.isProcessing = false := by
          rw [hP]; simp [inflightSendB, hin]
        obtain ⟨a, b, -, -, -⟩ := loadStart_inv
          { s with curConv := c, curGen := s.curGen + 1, inflight := none,
                   loadedConv := none }
          c hP0 rfl rfl rfl hlog
        exact ⟨a, b⟩
    | some o =>
        obtain ⟨k, tgt, g⟩ := o
        cases k with
        | send =>
            have hP1 : s.isProcessing = true := by
              rw [hP]; simp [inflightSendB, hin]
            have hpc : s.processingConv = s.curConv := by
              have h1 := (hOp _ hin).2.2.1 rfl
              have h2 := (hOp _ hin).2.1
              rw [h1, h2]
            unfold loadConversationStart
            rw [if_pos ⟨hP1, by rw [hpc]; exact fun hcc => hne hcc.symm⟩]
            unfold runAbortContinuation
            exact sendFinally_abort_inv _ _ rfl hlog
        | load =>
            have hP0 : s.isProcessing = false := by
              rw [hP]; simp [inflightSendB, hin]
            have htar : tgt = s.curConv := (hOp _ hin).2.1
            obtain ⟨a, b, -, hld2, -⟩ := loadStart_inv
              { s with curConv := c, curGen := s.curGen + 1, inflight := none,
                       loadedConv := none }
              c hP0 rfl rfl rfl hlog
            cases tgt with
            | none => exact ⟨a, b⟩
            | some id =>
                have hname :
                    (apiGetConversationError axiosCancelError).name ≠
                      "AbortError" := by decide
                have hldne :
                    (loadConversationStart c
                      { s with curConv := c, curGen := s.curGen + 1,
                               inflight := none,
                               loadedConv := none }).loadedConv ≠ some id := by
                  rw [hld2]; intro hcc; exact hne (hcc.trans htar)
                show
                  ChatInv (loadFinally id
                    (loadCatch id (apiGetConversationError axiosCancelError)
                      mountState
                      (loadConversationStart c
                        { s with curConv := c, curGen := s.curGen + 1,
                                 inflight := none, loadedConv := none }))) ∧
                  GoodLog (loadFinally id
                    (loadCatch id (apiGetConversationError axiosCancelError)
                      mountState
                      (loadConversationStart c
                        { s with curConv := c, curGen := s.curGen + 1,
                                 inflight := none, loadedConv := none })))
                rw [loadAbort_noop id _ mountState _ hname hldne]
                exact ⟨a, b⟩

theorem preserve_sendOk (s : ChatState) (r : ChatResponse)
    (hInv : ChatInv s) (hlog : GoodLog s) :
    ChatInv (step s (.sendOk r)) ∧ GoodLog (step s (.sendOk r)) := by
  obtain ⟨hL, hP, hOp⟩ := hInv
  cases hin : s.inflight with
  | none =>
      simp only [step, hin]
      exact ⟨⟨hL, hP, hOp⟩, hlog⟩
  | some o =>
      obtain ⟨k, tgt, g⟩ := o
      cases k with
      | load =>
          simp only [step, hin]
          rw [if_neg (by decide)]
          exact ⟨⟨hL, hP, hOp⟩, hlog⟩
      | send =>
          simp only [step, hin]
          rw [if_pos trivial]
          have hg : g = s.curGen := (hOp _ hin).1
          have hlogNew : ∀ p ∈ ((g, s.curGen) :: s.appliedLog), p.1 = p.2 := by
            intro p hp
            rcases List.mem_cons.mp hp with h | h
            · simp [h, hg]
            · exact hlog p h
          unfold sendOkCont
          cases tgt with
          | some t =>
              refine ⟨⟨rfl, rfl, ?_⟩, ?_⟩
              · intro o ho
                simp at ho
              · intro p hp
                exact hlogNew p hp
          | none =>
              cases hc : r.convId with
              | none =>
                  refine ⟨⟨rfl, rfl, ?_⟩, ?_⟩
                  · intro o ho
                    simp at ho
                  · intro p hp
                    exact hlogNew p hp
              | some c =>
                  exact ⟨(loadStart_inv _ (some c) rfl rfl rfl rfl
                      (fun p hp => hlogNew p hp)).1,
                    (loadStart_inv _ (some c) rfl rfl rfl rfl
                      (fun p hp => hlogNew p hp)).2.1⟩

theorem preserve_sendErr (s : ChatState) (e : JsError)
    (hInv : ChatInv s) (hlog : GoodLog s) :
    ChatInv (step s (.sendErr e)) ∧ GoodLog (step s (.sendErr e)) := by
  obtain ⟨hL, hP, hOp⟩ := hInv
  cases hin : s.inflight with
  | none =>
      simp only [step, hin]
      exact ⟨⟨hL, hP, hOp⟩, hlog⟩
  | some o =>
      obtain ⟨k, tgt, g⟩ := o
      cases k with
      | load =>
          simp only [step, hin]
          rw [if_neg (by decide)]
          exact ⟨⟨hL, hP, hOp⟩, hlog⟩
      | send =>
          simp only [step, hin]
          rw [if_pos trivial]
          obtain ⟨-, -, -, -, -, -, -, -, f9⟩ :=
            sendCatch_fields (apiSendMessageError e) s
          refine ⟨⟨rfl, rfl, ?_⟩, ?_⟩
          · intro o ho
            simp at ho
          · intro p hp
            exact hlog p (f9 ▸ hp)

theorem preserve_loadOk (s : ChatState) (d : LoadedConv)
    (hInv : ChatInv s) (hlog : GoodLog s) :
    ChatInv (step s (.loadOk d)) ∧ GoodLog (step s (.loadOk d)) := by
  obtain ⟨hL, hP, hOp⟩ := hInv
  cases hin : s.inflight with
  | none =>
      simp only [step, hin]
      exact ⟨⟨hL, hP, hOp⟩, hlog⟩
  | some o =>
      obtain ⟨k, tgt, g⟩ := o
      cases k with
      | send =>
          simp only [step, hin]
          exact ⟨⟨hL, hP, hOp⟩, hlog⟩
      | load =>
          cases tgt with
          | none =>
              simp only [step, hin]
              exact ⟨⟨hL, hP, hOp⟩, hlog⟩
          | some id =>
              simp only [step, hin]
              have hg : g = s.curGen := (hOp _ hin).1
              have hld : s.loadedConv = some id := ((hOp _ hin).2.2.2 rfl).1
              unfold loadOkCont
              rw [if_pos hld]
              refine ⟨⟨rfl, ?_, ?_⟩, ?_⟩
              · rw [hP]
                simp [inflightSendB, hin]
              · intro o ho
                simp at ho
              · intro p hp
                rcases List.mem_cons.mp hp with h | h
                · simp [h, hg]
                · exact hlog p h

theorem preserve_loadErr (s : ChatState) (e : JsError)
    (hInv : ChatInv s) (hlog : GoodLog s) :
    ChatInv (step s (.loadErr e)) ∧ GoodLog (step s (.loadErr e)) := by
  obtain ⟨hL, hP, hOp⟩ := hInv
  cases hin : s.inflight with
  | none =>
      simp only [step, hin]
      exact ⟨⟨hL, hP, hOp⟩, hlog⟩
  | some o =>
      obtain ⟨k, tgt, g⟩ := o
      cases k with
      | send =>
          simp only [step, hin]
          exact ⟨⟨hL, hP, hOp⟩, hlog⟩
      | load =>
          cases tgt with
          | none =>
              simp only [step, hin]
              exact ⟨⟨hL, hP, hOp⟩, hlog⟩
          | some id =>
              simp only [step, hin]
              have hld : s.loadedConv = some id := ((hOp _ hin).2.2.2 rfl).1
              have hcatch :
                  loadCatch id (apiGetConversationError e) mountState s =
                    { s with
                        notifs := "Failed to load conversation" :: s.notifs,
                        msgs := [welcomeMsg] } := by
                have hname :
                    ¬ (apiGetConversationError e).name = "AbortError" := by
                  intro h
                  simp [apiGetConversationError] at h
                have h404 :
                    ¬ (apiGetConversationError e).status = some 404 := by
                  intro h
                  simp [apiGetConversationError] at h
                unfold loadCatch
                rw [if_neg hname, if_pos hld, if_neg h404]
              rw [hcatch]
              unfold loadFinally
              rw [if_pos hld]
              refine ⟨⟨rfl, ?_, ?_⟩, ?_⟩
              · rw [hP]
                simp [inflightSendB, hin]
              · intro o ho
                simp at ho
              · intro p hp
                exact hlog p hp

theorem step_preserves (s : ChatState) (ev : ChatEvent)
    (hInv : ChatInv s) (hlog : GoodLog s) :
    ChatInv (step s ev) ∧ GoodLog (step s ev) := by
  cases ev with
  | switch c => exact preserve_switch s c hInv hlog
  | submit text => exact preserve_submit s text hInv hlog
  | clickSuggestion i => exact preserve_clickSuggestion s i hInv hlog
  | sendOk r => exact preserve_sendOk s r hInv hlog
  | sendErr e => exact preserve_sendErr s e hInv hlog
  | loadOk d => exact preserve_loadOk s d hInv hlog
  | loadErr e => exact preserve_loadErr s e hInv hlog

theorem runChat_inv (evs : List ChatEvent) :
    ChatInv (runChat evs) ∧ GoodLog (runChat evs) := by
  suffices h : ∀ (s : ChatState), ChatInv s → GoodLog s →
      ChatInv (evs.foldl step s) ∧ GoodLog (evs.foldl step s) by
    exact h mountState chatInv_mount.1 chatInv_mount.2
  induction evs with
  | nil => exact fun s h1 h2 => ⟨h1, h2⟩
  | cons e rest ih =>
      intro s h1 h2
      obtain ⟨h3, h4⟩ := step_preserves s e h1 h2
      exact ih (step s e) h3 h4

/-- C2: for every client operation (load or send) targeting a conversation,
the operation's result is applied to visible state only if the generation it
carried at its start equals the target's current generation at completion
time; in particular a send started on conversation A whose response would
arrive after the user switched to B — or switched A to B and back to A — is
never applied, because every switch aborts the in-flight operation and the
aborted operation's rejection path applies no result.  Formally: every entry
of the ghost applied-log, which records (operation generation, current
generation) at each application of a network result to the visible messages,
has equal components, on every event trace from the mounted page. -/
theorem c2_generation_guard (evs : List ChatEvent) (p : Nat × Nat)
    (hp : p ∈ (runChat evs).appliedLog) : p.1 = p.2 :=
  (runChat_inv evs).2 p hp

theorem c2_generation_guard_witness :
    ((1, 1) : Nat × Nat) ∈
      (runChat [.submit "hi",
        .sendOk ⟨"ok", some 5, none⟩]).appliedLog ∧ (1 : Nat) = 1 := by
  have hmem : ((1, 1) : Nat × Nat) ∈
      (runChat [.submit "hi", .sendOk ⟨"ok", some 5, none⟩]).appliedLog := by
    decide
  exact ⟨hmem,
    c2_generation_guard [.submit "hi", .sendOk ⟨"ok", some 5, none⟩] (1, 1) hmem⟩

/-- C5: whenever a send operation is outstanding in a reachable state, the
page is in the processing-overlay state ("Processing your request..." is
displayed), the message input is disabled (`disabled={isChatLoading}` with
`isLoading` raised), a submit of a second message fires nothing and keeps the
typed text, and the machine state is unchanged by the submit — the
outstanding send is neither cancelled nor replaced and nothing is queued. -/
theorem c5_second_send_rejected (evs : List ChatEvent) (o : Op) (text : String)
    (h : (runChat evs).inflight = some o) (hk : o.kind = .send) :
    (runChat evs).isProcessing = true ∧
    processingOverlay (runChat evs) = some "Processing your request..." ∧
    handleSubmit text (runChat evs).isLoading = (none, text) ∧
    step (runChat evs) (.submit text) = runChat evs := by
  obtain ⟨hL, hP, _⟩ := (runChat_inv evs).1
  have hproc : (runChat evs).isProcessing = true := by
    rw [hP]
    simp [inflightSendB, h, hk]
  have hload : (runChat evs).isLoading = true := by
    rw [hL, h]
    rfl
  refine ⟨hproc, ?_, ?_, ?_⟩
  · simp [processingOverlay, hproc]
  · simp [handleSubmit, hload]
  · simp only [step]
    rw [if_neg (fun hc => by rw [hload] at hc; exact absurd hc.2 (by simp))]

theorem c5_second_send_rejected_witness :
    (runChat [.submit "hi"]).inflight =
        some ⟨.send, none, 1⟩ ∧ OpKind.send = OpKind.send ∧
      ((runChat [.submit "hi"]).isProcessing = true ∧
       processingOverlay (runChat [.submit "hi"]) =
         some "Processing your request..." ∧
       handleSubmit "again" (runChat [.submit "hi"]).isLoading =
         (none, "again") ∧
       step (runChat [.submit "hi"]) (.submit "again") = runChat [.submit "hi"]) := by
  have h : (runChat [.submit "hi"]).inflight = some ⟨.send, none, 1⟩ := by decide
  exact ⟨h, rfl, c5_second_send_rejected [.submit "hi"] ⟨.send, none, 1⟩ "again" h rfl⟩

/-- C7 (failing input): a send cancelled through its abort signal is NOT
swallowed by the hook, against the code's stated intent.  api.js maps the
axios cancel error (message "canceled") to `Error("Request was cancelled")`;
useChat's guard then tests `error.message.includes("canceled")`, which is
false for the double-l spelling "cancelled", so on the trace
[send "hi", switch to conversation 2] — where the switch aborts the
outstanding send — an error bubble "Request was cancelled" is appended to the
visible messages and a "Failed to send message" notification is surfaced. -/
theorem c7_cancelled_send_surfaces_error :
    (apiSendMessageError axiosCancelError).message = "Request was cancelled" ∧
    jsIncludes "Request was cancelled" "canceled" = false ∧
    "Failed to send message" ∈
      (runChat [.submit "hi", .switch (some 2)]).notifs ∧
    (⟨"assistant", "Request was cancelled", true⟩ : ChatMsg) ∈
      (runChat [.submit "hi", .switch (some 2)]).msgs := by
  exact ⟨rfl, by decide, by decide, by decide⟩

/-- C8: a send issued with no current conversation id carries no
`conversation_id` parameter, and when its response carries the new
conversation's id, the hook records that id as the loaded conversation,
adopts it as the current conversation (via the navigation performed by the
conversation-update callback) and invokes the callback exactly once. -/
theorem c8_new_conversation_adopted (evs : List ChatEvent) (o : Op)
    (r : ChatResponse) (c : Nat)
    (h : (runChat evs).inflight = some o) (hk : o.kind = .send)
    (ht : o.target = none) (hc : r.convId = some c) :
    (chatConfig none).params = [] ∧
    (step (runChat evs) (.sendOk r)).callbacks =
      (runChat evs).callbacks ++ [c] ∧
    (step (runChat evs) (.sendOk r)).curConv = some c ∧
    (step (runChat evs) (.sendOk r)).loadedConv = some c := by
  obtain ⟨k, tgt, g⟩ := o
  cases hk
  cases ht
  simp only [step, h]
  rw [if_pos trivial]
  unfold sendOkCont
  rw [hc]
  exact ⟨rfl, rfl, rfl, rfl⟩

theorem c8_new_conversation_adopted_witness :
    (runChat [.submit "hi"]).inflight = some ⟨.send, none, 1⟩ ∧
      OpKind.send = OpKind.send ∧
      (some 5 : Option Nat) = some 5 ∧
      ((chatConfig none).params = [] ∧
       (step (runChat [.submit "hi"])
          (.sendOk ⟨"ok", some 5, none⟩)).callbacks =
         (runChat [.submit "hi"]).callbacks ++ [5] ∧
       (step (runChat [.submit "hi"])
          (.sendOk ⟨"ok", some 5, none⟩)).curConv = some 5 ∧
       (step (runChat [.submit "hi"])
          (.sendOk ⟨"ok", some 5, none⟩)).loadedConv = some 5) := by
  have h : (runChat [.submit "hi"]).inflight = some ⟨.send, none, 1⟩ := by decide
  exact ⟨h, rfl, rfl,
    c8_new_conversation_adopted [.submit "hi"] ⟨.send, none, 1⟩
      ⟨"ok", some 5, none⟩ 5 h rfl rfl rfl⟩

/-- C9: after every successful loadConversations and after every
touchConversation, the visible conversations list is sorted by `updated_at`
in descending order (most recently updated first). -/
theorem c9_sorted_after_load_and_touch (now : Nat) (data : List RawConv)
    (id : String) (convs : List Conv) :
    List.Sorted updatedDesc (loadConversationsApply now data) ∧
    List.Sorted updatedDesc (touchConversation now id convs) :=
  ⟨List.sorted_insertionSort updatedDesc _,
   List.sorted_insertionSort updatedDesc _⟩

/-- C10: on every API response with HTTP status 401 or 403, the client
removes the stored token and user entries from localStorage, and schedules a
redirect to `/auth` exactly when the current page is not already `/auth` and
the failed request did not target an `/auth/` endpoint. -/
theorem c10_auth_error_clears_and_redirects (err : AxiosError)
    (st : LocalStorage) (pathname : String)
    (h : err.status = some 401 ∨ err.status = some 403) :
    (∀ kv ∈ (responseErrorInterceptor err st pathname).storage,
        kv.1 ≠ "token" ∧ kv.1 ≠ "user") ∧
    ((responseErrorInterceptor err st pathname).redirectScheduled = true ↔
      (pathname ≠ "/auth" ∧ urlTargetsAuth err.url = false)) := by
  unfold responseErrorInterceptor
  rw [if_pos h]
  constructor
  · intro kv hkv
    have hkv2 : kv ∈ removeItem (removeItem st "token") "user" := by
      revert hkv
      split <;> exact fun hkv => hkv
    simp only [removeItem, List.mem_filter, decide_eq_true_eq] at hkv2
    exact ⟨hkv2.1.2, hkv2.2⟩
  · split
    · rename_i hcond
      simpa using hcond
    · rename_i hcond
      simpa using hcond

theorem c10_auth_error_clears_and_redirects_witness :
    ((⟨some 401, some "/conversations/"⟩ : AxiosError).status = some 401 ∨
      (⟨some 401, some "/conversations/"⟩ : AxiosError).status = some 403) ∧
    ((∀ kv ∈ (responseErrorInterceptor ⟨some 401, some "/conversations/"⟩
          [("token", "t"), ("user", "u"), ("darkMode", "true")]
          "/chat").storage,
        kv.1 ≠ "token" ∧ kv.1 ≠ "user") ∧
      ((responseErrorInterceptor ⟨some 401, some "/conversations/"⟩
          [("token", "t"), ("user", "u"), ("darkMode", "true")]
          "/chat").redirectScheduled = true ↔
        ("/chat" ≠ "/auth" ∧
         urlTargetsAuth (some "/conversations/") = false))) :=
  ⟨Or.inl rfl,
   c10_auth_error_clears_and_redirects ⟨some 401, some "/conversations/"⟩
     [("token", "t"), ("user", "u"), ("darkMode", "true")] "/chat"
     (Or.inl rfl)⟩

/-- C4: for each of the three optimistic conversation mutations whose server
call fails, the visible list after rollback equals the list immediately
before the mutation was applied, and a failure notification is surfaced.  For
create, the rollback filters out the optimistic `temp-` id, so the statement
carries the (code-guaranteed) premise that no pre-existing conversation bears
that id. -/
theorem c4_rollback_restores_prior_state (s : ConvState) (now : Nat)
    (title id did : String) (s1 s2 s3 : ConvState) (snap2 snap3 : List Conv)
    (hc : beginCreate now title s = some s1)
    (hid : ∀ cv ∈ s.convs, cv.id ≠ "temp-" ++ toString now)
    (hu : beginUpdate now id title s = some (s2, snap2))
    (hd : beginDelete did s = some (s3, snap3)) :
    ((settleCreateFail now s1).convs = s.convs ∧
      "Failed to create conversation" ∈ (settleCreateFail now s1).notifs) ∧
    ((settleUpdateFail id snap2 s2).convs = s.convs ∧
      "Failed to update conversation" ∈ (settleUpdateFail id snap2 s2).notifs) ∧
    ((settleDeleteFail did snap3 s3).convs = s.convs ∧
      "Failed to delete conversation" ∈
        (settleDeleteFail did snap3 s3).notifs) := by
  unfold beginCreate at hc
  unfold beginUpdate at hu
  unfold beginDelete at hd
  split at hc
  · exact absurd hc (by simp)
  · split at hu
    · exact absurd hu (by simp)
    · split at hd
      · exact absurd hd (by simp)
      · obtain rfl := Option.some_inj.mp hc
        obtain ⟨rfl, rfl⟩ := Prod.mk.injEq .. ▸ Option.some_inj.mp hu
        obtain ⟨rfl, rfl⟩ := Prod.mk.injEq .. ▸ Option.some_inj.mp hd
        refine ⟨⟨?_, ?_⟩, ⟨rfl, ?_⟩, ⟨rfl, ?_⟩⟩
        · simp only [settleCreateFail, optimisticConv, List.filter_cons]
          rw [if_neg (by simp)]
          rw [List.filter_eq_self.mpr]
          intro cv hcv
          simpa using hid cv hcv
        · simp [settleCreateFail]
        · simp [settleUpdateFail]
        · simp [settleDeleteFail]

theorem c4_rollback_restores_prior_state_witness :
    (beginCreate 7 "N" ⟨[], [], []⟩ =
      some ⟨[optimisticConv 7 "N"], ["create-conversation"], []⟩) ∧
    (∀ cv ∈ ([] : List Conv), cv.id ≠ "temp-" ++ toString 7) ∧
    (beginUpdate 7 "a" "N" ⟨[], [], []⟩ = some (⟨[], ["update-a"], []⟩, [])) ∧
    (beginDelete "a" ⟨[], [], []⟩ = some (⟨[], ["delete-a"], []⟩, [])) ∧
    (((settleCreateFail 7 ⟨[optimisticConv 7 "N"], ["create-conversation"], []⟩).convs = [] ∧
      "Failed to create conversation" ∈
        (settleCreateFail 7
          ⟨[optimisticConv 7 "N"], ["create-conversation"], []⟩).notifs) ∧
     ((settleUpdateFail "a" [] ⟨[], ["update-a"], []⟩).convs = [] ∧
      "Failed to update conversation" ∈
        (settleUpdateFail "a" [] ⟨[], ["update-a"], []⟩).notifs) ∧
     ((settleDeleteFail "a" [] ⟨[], ["delete-a"], []⟩).convs = [] ∧
      "Failed to delete conversation" ∈
        (settleDeleteFail "a" [] ⟨[], ["delete-a"], []⟩).notifs)) := by
  refine ⟨by decide, by decide, by decide, by decide, ?_⟩
  exact c4_rollback_restores_prior_state ⟨[], [], []⟩ 7 "N" "a" "a"
    ⟨[optimisticConv 7 "N"], ["create-conversation"], []⟩
    ⟨[], ["update-a"], []⟩ ⟨[], ["delete-a"], []⟩ [] []
    (by decide) (by decide) (by decide) (by decide)

/-- C6 (counterexample): a rename of entity X and a delete of the same
entity X are tracked under different pendingOps keys (`update-X` and
`delete-X`), so the second is admitted while the first is still pending and
two mutations on the same entity are in progress at once — the claim that at
most one mutation of any kind per entity is in progress is false. -/
theorem c6_counterexample_same_entity_overlap :
    beginUpdate 3 "X" "T" ⟨[], [], []⟩ =
      some (⟨[], ["update-X"], []⟩, []) ∧
    beginDelete "X" ⟨[], ["update-X"], []⟩ =
      some (⟨[], ["delete-X", "update-X"], []⟩, []) ∧
    mutationsInProgressOn ⟨[], ["delete-X", "update-X"], []⟩ "X" = 2 := by
  decide

/-- C6 (amended): optimistic mutations serialize per (kind, entity) key, not
per entity: while a rename of an entity is pending a second rename of it is
rejected, while a delete is pending a second delete of it is rejected, and
while a create is pending a second create is rejected; a rename and a delete
of the same entity, however, may overlap (see the counterexample). -/
theorem c6_mutations_serialize_per_kind_and_key (s : ConvState) (now : Nat)
    (id title : String)
    (h1 : "update-" ++ id ∈ s.pending) (h2 : "delete-" ++ id ∈ s.pending)
    (h3 : "create-conversation" ∈ s.pending) :
    beginUpdate now id title s = none ∧ beginDelete id s = none ∧
    beginCreate now title s = none := by
  unfold beginUpdate beginDelete beginCreate
  rw [if_pos h1, if_pos h2, if_pos h3]
  exact ⟨rfl, rfl, rfl⟩

theorem c6_mutations_serialize_per_kind_and_key_witness :
    ("update-" ++ "X" ∈
        (⟨[], ["update-X", "delete-X", "create-conversation"], []⟩ :
          ConvState).pending) ∧
    ("delete-" ++ "X" ∈
        (⟨[], ["update-X", "delete-X", "create-conversation"], []⟩ :
          ConvState).pending) ∧
    ("create-conversation" ∈
        (⟨[], ["update-X", "delete-X", "create-conversation"], []⟩ :
          ConvState).pending) ∧
    (beginUpdate 3 "X" "T"
        ⟨[], ["update-X", "delete-X", "create-conversation"], []⟩ = none ∧
     beginDelete "X"
        ⟨[], ["update-X", "delete-X", "create-conversation"], []⟩ = none ∧
     beginCreate 3 "T"
        ⟨[], ["update-X", "delete-X", "create-conversation"], []⟩ = none) := by
  refine ⟨by decide, by decide, by decide, ?_⟩
  exact c6_mutations_serialize_per_kind_and_key
    ⟨[], ["update-X", "delete-X", "create-conversation"], []⟩ 3 "X" "T"
    (by decide) (by decide) (by decide)

theorem rlStep_eq (st : List Nat) (t : Nat) :
    rlStep st t =
      if (rlPrune t st).length < rlQuota then (t :: rlPrune t st, true)
      else (rlPrune t st, false) := rfl

theorem rlStateFrom_append (st : List Nat) (tr : List Nat) (t : Nat) :
    rlStateFrom st (tr ++ [t]) = (rlStep (rlStateFrom st tr) t).1 := by
  unfold rlStateFrom
  rw [List.foldl_append]
  rfl

theorem rlAcceptedFrom_append (st : List Nat) (tr : List Nat) (t : Nat) :
    rlAcceptedFrom st (tr ++ [t]) =
      rlAcceptedFrom st tr ++
        (if (rlStep (rlStateFrom st tr) t).2 then [t] else []) := by
  induction tr generalizing st with
  | nil => simp [rlAcceptedFrom, rlStateFrom]
  | cons a tr ih =>
      show (if (rlStep st a).2 then [a] else []) ++
          rlAcceptedFrom (rlStep st a).1 (tr ++ [t]) = _
      rw [ih]
      rw [← List.append_assoc]
      rfl

theorem rlPrune_rlPrune (b t : Nat) (ht : t ≤ b) (l : List Nat) :
    rlPrune b (rlPrune t l) = rlPrune b l := by
  unfold rlPrune
  rw [List.filter_filter]
  apply List.filter_congr
  intro x _
  by_cases hbx : b < x + rlWindowMs
  · simp [hbx, Nat.lt_of_le_of_lt ht hbx]
  · simp [hbx]

theorem rlPrune_stateFrom (tr : List Nat) :
    ∀ b, List.Sorted (· ≤ ·) tr → (∀ x ∈ tr, x ≤ b) →
    rlPrune b (rlStateFrom [] tr) =
      ((rlAcceptedFrom [] tr).filter
        (fun x => decide (b < x + rlWindowMs))).reverse := by
  induction tr using List.reverseRecOn with
  | nil => intro b _ _; rfl
  | append_singleton tr t ih =>
      intro b hsort hbound
      have hsort2 : List.Sorted (· ≤ ·) tr := (List.pairwise_append.mp hsort).1
      have hle : ∀ x ∈ tr, x ≤ t := fun x hx =>
        (List.pairwise_append.mp hsort).2.2 x hx t (by simp)
      have htb : t ≤ b := hbound t (by simp)
      have hbt : ∀ x ∈ tr, x ≤ b := fun x hx => le_trans (hle x hx) htb
      rw [rlStateFrom_append, rlAcceptedFrom_append, rlStep_eq]
      by_cases hacc : (rlPrune t (rlStateFrom [] tr)).length < rlQuota
      · rw [if_pos hacc]
        show rlPrune b (t :: rlPrune t (rlStateFrom [] tr)) =
          ((rlAcceptedFrom [] tr ++ [t]).filter
            (fun x => decide (b < x + rlWindowMs))).reverse
        have hmid : rlPrune b (rlPrune t (rlStateFrom [] tr)) =
            ((rlAcceptedFrom [] tr).filter
              (fun x => decide (b < x + rlWindowMs))).reverse := by
          rw [rlPrune_rlPrune b t htb]
          exact ih b hsort2 hbt
        simp only [rlPrune] at hmid ⊢
        rw [List.filter_cons, List.filter_append, List.reverse_append, hmid]
        by_cases hpt : b < t + rlWindowMs
        · simp [hpt]
        · simp [hpt]
      · rw [if_neg hacc]
        show rlPrune b (rlPrune t (rlStateFrom [] tr)) =
          ((rlAcceptedFrom [] tr ++ []).filter
            (fun x => decide (b < x + rlWindowMs))).reverse
        rw [rlPrune_rlPrune b t htb, List.append_nil]
        exact ih b hsort2 hbt

theorem rl_accepted_window_bound (tr : List Nat)
    (hsort : List.Sorted (· ≤ ·) tr) (T : Nat) :
    ((rlAcceptedFrom [] tr).filter
      (fun x => decide (T < x + rlWindowMs) && decide (x ≤ T))).length ≤
      rlQuota := by
  induction tr using List.reverseRecOn with
  | nil => simp [rlAcceptedFrom, rlQuota]
  | append_singleton tr t ih =>
      have hsort2 : List.Sorted (· ≤ ·) tr := (List.pairwise_append.mp hsort).1
      have hle : ∀ x ∈ tr, x ≤ t := fun x hx =>
        (List.pairwise_append.mp hsort).2.2 x hx t (by simp)
      rw [rlAcceptedFrom_append, List.filter_append, List.length_append,
        rlStep_eq]
      by_cases hacc : (rlPrune t (rlStateFrom [] tr)).length < rlQuota
      · rw [if_pos hacc,
          show ((t :: rlPrune t (rlStateFrom [] tr), true) :
            List Nat × Bool).2 = true from rfl,
          if_pos rfl]
        by_cases hwin : T < t + rlWindowMs ∧ t ≤ T
        · have hkey : ((rlAcceptedFrom [] tr).filter
              (fun x => decide (T < x + rlWindowMs) && decide (x ≤ T))).length ≤
              (rlPrune t (rlStateFrom [] tr)).length := by
            rw [rlPrune_stateFrom tr t hsort2 hle, List.length_reverse]
            refine List.Sublist.length_le ?_
            refine List.monotone_filter_right _ ?_
            intro x hx
            simp only [Bool.and_eq_true, decide_eq_true_eq] at hx ⊢
            omega
          have hsing : (List.filter
              (fun x => decide (T < x + rlWindowMs) && decide (x ≤ T))
              [t]).length ≤ 1 := by
            cases h : (decide (T < t + rlWindowMs) && decide (t ≤ T)) <;>
              simp [List.filter_cons, h]
          omega
        · have hfalse :
              (decide (T < t + rlWindowMs) && decide (t ≤ T)) = false := by
            by_cases h1 : T < t + rlWindowMs
            · have h2 : ¬ t ≤ T := fun h2 => hwin ⟨h1, h2⟩
              simp [h2]
            · simp [h1]
          have hzero : (List.filter
              (fun x => decide (T < x + rlWindowMs) && decide (x ≤ T))
              [t]).length = 0 := by
            simp [List.filter_cons, hfalse]
          rw [hzero]
          have := ih hsort2
          omega
      · rw [if_neg hacc,
          show ((rlPrune t (rlStateFrom [] tr), false) :
            List Nat × Bool).2 = false from rfl,
          if_neg Bool.false_ne_true]
        simp only [List.filter_nil, List.length_nil]
        have := ih hsort2
        omega

/-- C3: for every user, at most 20 requests are accepted within any trailing
60-second window (over any time-ordered call sequence); and a request
arriving while the pruned window already holds the quota is denied without
recording a timestamp, without contacting the upstream collaborator
(0 upstream invocations), and with the distinct RateLimited status rather
than a generic failure. -/
theorem c3_rate_limit_quota (tr : List Nat)
    (hsort : List.Sorted (· ≤ ·) tr) (T : Nat) (st : List Nat) (now : Nat)
    (reply : String) (hfull : rlQuota ≤ (rlPrune now st).length) :
    ((rlAcceptedFrom [] tr).filter
      (fun x => decide (T < x + rlWindowMs) && decide (x ≤ T))).length ≤
        rlQuota ∧
    rlStep st now = (rlPrune now st, false) ∧
    orchestrateTurn st now reply = (rlPrune now st, .rateLimited, 0) ∧
    TurnOutcome.rateLimited ≠ TurnOutcome.upstreamFailure := by
  have hnot : ¬ (rlPrune now st).length < rlQuota := Nat.not_lt.mpr hfull
  refine ⟨rl_accepted_window_bound tr hsort T, ?_, ?_, by simp⟩
  · rw [rlStep_eq, if_neg hnot]
  · unfold orchestrateTurn
    rw [rlStep_eq, if_neg hnot]
    rfl

theorem c3_rate_limit_quota_witness :
    List.Sorted (· ≤ ·) [0, 1, 5] ∧
    rlQuota ≤ (rlPrune 30 (List.replicate 20 0)).length ∧
    (((rlAcceptedFrom [] [0, 1, 5]).filter
        (fun x => decide (100 < x + rlWindowMs) && decide (x ≤ 100))).length ≤
          rlQuota ∧
      rlStep (List.replicate 20 0) 30 =
        (rlPrune 30 (List.replicate 20 0), false) ∧
      orchestrateTurn (List.replicate 20 0) 30 "r" =
        (rlPrune 30 (List.replicate 20 0), .rateLimited, 0) ∧
      TurnOutcome.rateLimited ≠ TurnOutcome.upstreamFailure) := by
  refine ⟨by decide, by decide, ?_⟩
  exact c3_rate_limit_quota [0, 1, 5] (by decide) 100 (List.replicate 20 0)
    30 "r" (by decide)

theorem dedupRun_hit (fp : String) (compute : DedupOutcome) (t0 : Nat)
    (ts : List Nat) (hts : ∀ t ∈ ts, t < t0 + dedupTTLMs) :
    dedupRun [(fp, ⟨compute, t0 + dedupTTLMs⟩)] fp compute ts =
      (List.replicate ts.length compute, 0) := by
  induction ts with
  | nil => rfl
  | cons t ts ih =>
      have ht : t < t0 + dedupTTLMs := hts t (by simp)
      have hget : getOrCreate [(fp, ⟨compute, t0 + dedupTTLMs⟩)] fp compute t =
          ([(fp, ⟨compute, t0 + dedupTTLMs⟩)], compute, 0) := by
        unfold getOrCreate
        rw [show List.find? (fun kv => kv.1 == fp)
            [(fp, (⟨compute, t0 + dedupTTLMs⟩ : DedupEntry))] =
            some (fp, ⟨compute, t0 + dedupTTLMs⟩) from by simp]
        simp [ht]
      simp only [dedupRun]
      rw [hget, ih (fun x hx => hts x (List.mem_cons_of_mem t hx))]
      simp [List.replicate_succ]

/-- C1: for every set of chat requests sharing a request fingerprint (same
user identity, same target conversation, same message) issued within the
dedup TTL of the first request, the expensive upstream computation executes
exactly once, and every caller receives the identical outcome (the identical
result or the identical error). -/
theorem c1_dedup_exactly_once (userId : Nat) (conversationId : Option Nat)
    (msg : String) (compute : DedupOutcome) (t0 : Nat) (ts : List Nat)
    (hts : ∀ t ∈ ts, t < t0 + dedupTTLMs) :
    (dedupRun [] (fingerprint userId conversationId msg) compute
        (t0 :: ts)).2 = 1 ∧
    (dedupRun [] (fingerprint userId conversationId msg) compute
        (t0 :: ts)).1 = List.replicate (ts.length + 1) compute := by
  simp only [dedupRun]
  rw [show getOrCreate [] (fingerprint userId conversationId msg) compute t0 =
      ([(fingerprint userId conversationId msg, ⟨compute, t0 + dedupTTLMs⟩)],
        compute, 1) from rfl]
  rw [dedupRun_hit (fingerprint userId conversationId msg) compute t0 ts hts]
  exact ⟨rfl, by simp [List.replicate_succ]⟩

theorem c1_dedup_exactly_once_witness :
    (∀ t ∈ [500, 1500], t < 0 + dedupTTLMs) ∧
    ((dedupRun [] (fingerprint 1 none "Plan a trip to Kyoto")
        (DedupOutcome.done "itinerary") (0 :: [500, 1500])).2 = 1 ∧
      (dedupRun [] (fingerprint 1 none "Plan a trip to Kyoto")
        (DedupOutcome.done "itinerary") (0 :: [500, 1500])).1 =
        List.replicate 3 (DedupOutcome.done "itinerary")) := by
  refine ⟨by decide, ?_⟩
  exact c1_dedup_exactly_once 1 none "Plan a trip to Kyoto"
    (DedupOutcome.done "itinerary") 0 [500, 1500] (by decide)

/-- Context for the dedup guarantee: the client-side `pendingRequests`
interceptor (api.js:19-44) applies only to `get` requests; a chat request is
a POST, so the interceptor passes it through untouched and records nothing —
the exactly-once property of the upstream completion call is the server-side
DedupCache's, not the client's. -/
theorem chat_requests_not_deduplicated_client_side (pend : PendingMap)
    (cid : Option Nat) :
    requestInterceptor pend (chatConfig cid) = (chatConfig cid, pend) := by
  unfold requestInterceptor
  rw [if_neg (by simp [chatConfig])]

end VPChatbot
